import Mathlib

/-!
# libfyaml internal headers: document model (fy-doc.h) and parser (fy-parse.h)

A shallow embedding of the two internal headers and the properties checked
against them.  C enumerations become inductive types together with the value
the C rule gives each enumerator, `static inline` functions become Lean
functions, a `struct fy_parser *` that may be NULL becomes an `Option`, and
reader operations that may change the reader return the reader they leave
behind.
-/

namespace Fyaml

/-! ## fy-doc.h : node marks -/

/-- Modelled from the spec: `FY_BIT` is defined in the public header, which is
not among the sources.  The spec treats `FY_BIT(i)` as the mask of mark index
`i` in the `unsigned int marks` word of a node, that is `1U << i` computed on
32 bits. -/
def FY_BIT (x : Nat) : Nat := (1 <<< x) % 2 ^ 32

/-- `#define FYNWF_VISIT_MARKER (FYNWF_MAX_USER_MARKER + 1)`; the user maximum
comes from the public header and is taken as a parameter. -/
def FYNWF_VISIT_MARKER (FYNWF_MAX_USER_MARKER : Nat) : Nat :=
  FYNWF_MAX_USER_MARKER + 1

/-- `#define FYNWF_REF_MARKER (FYNWF_MAX_USER_MARKER + 2)`. -/
def FYNWF_REF_MARKER (FYNWF_MAX_USER_MARKER : Nat) : Nat :=
  FYNWF_MAX_USER_MARKER + 2

/-- `#define FYNWF_SYSTEM_MARKS (FY_BIT(FYNWF_VISIT_MARKER) | FY_BIT(FYNWF_REF_MARKER))`. -/
def FYNWF_SYSTEM_MARKS (FYNWF_MAX_USER_MARKER : Nat) : Nat :=
  FY_BIT (FYNWF_VISIT_MARKER FYNWF_MAX_USER_MARKER) |||
    FY_BIT (FYNWF_REF_MARKER FYNWF_MAX_USER_MARKER)

/-! ## fy-doc.h : walk components -/

/-- The `enum fy_walk_component_type`, enumerators in declaration order. -/
inductive fy_walk_component_type where
  | fwct_none
  | fwct_start_root
  | fwct_start_alias
  | fwct_root
  | fwct_this
  | fwct_parent
  | fwct_every_child
  | fwct_every_child_r
  | fwct_every_leaf
  | fwct_assert_collection
  | fwct_simple_map_key
  | fwct_simple_seq_index
  | fwct_simple_sibling_map_key
  deriving DecidableEq

open fy_walk_component_type

/-- The function `fy_walk_component_type_is_initial` of fy-doc.h. -/
def fy_walk_component_type_is_initial (type : fy_walk_component_type) : Bool :=
  type == fwct_start_root ||
  type == fwct_start_alias

/-- The function `fy_walk_component_type_is_terminating` of fy-doc.h. -/
def fy_walk_component_type_is_terminating (type : fy_walk_component_type) : Bool :=
  type == fwct_every_child_r ||
  type == fwct_every_leaf ||
  type == fwct_assert_collection

/-- The anonymous union inside `struct fy_walk_component`, one constructor per
member (the member `alias` is spelled `alias_`, the plain word being reserved). -/
inductive fy_walk_component_union where
  | reljson_ptr_count (reljson_ptr_count : Int)
  | seq_index (seq_index : Int)
  | map_key (key_alloc : Option String) (key : String) (keylen : Nat)
  | alias_ (alias_ : String) (aliaslen : Nat)
  deriving DecidableEq

/-- The `struct fy_walk_component` without its list linkage. -/
structure fy_walk_component where
  comp : String
  complen : Nat
  type : fy_walk_component_type
  multi : Bool
  u : fy_walk_component_union
  deriving DecidableEq

/-- Modelled from the spec: the compiled form of the path `/a/**/c` of
scenario 4.  The compiler `fy_walk_create` is only declared in fy-doc.h, so the
sequence is the one the scenario names: start-root, simple-map-key `a`,
every-child-recursive (a multi-result component), simple-map-key `c`. -/
def ypath_a_every_child_r_c : List fy_walk_component :=
  [ { comp := "/", complen := 1, type := fwct_start_root, multi := false,
      u := .reljson_ptr_count 0 },
    { comp := "a", complen := 1, type := fwct_simple_map_key, multi := false,
      u := .map_key none "a" 1 },
    { comp := "**", complen := 2, type := fwct_every_child_r, multi := true,
      u := .reljson_ptr_count 0 },
    { comp := "c", complen := 1, type := fwct_simple_map_key, multi := false,
      u := .map_key none "c" 1 } ]

/-- Placement as the spec words it: every component the initial predicate
accepts stands first and every component the terminating predicate accepts
stands last. -/
def ypath_well_placed (cs : List fy_walk_component) : Prop :=
  ∀ i : Fin cs.length,
    (fy_walk_component_type_is_initial (cs.get i).type = true → i.val = 0) ∧
    (fy_walk_component_type_is_terminating (cs.get i).type = true → i.val + 1 = cs.length)

instance (cs : List fy_walk_component) : Decidable (ypath_well_placed cs) := by
  unfold ypath_well_placed
  exact inferInstance

/-! ## fy-parse.h : constants and parser states -/

/-- `#define FY_DEFAULT_YAML_VERSION_MAJOR 1`. -/
def FY_DEFAULT_YAML_VERSION_MAJOR : Nat := 1

/-- `#define FY_DEFAULT_YAML_VERSION_MINOR 1`. -/
def FY_DEFAULT_YAML_VERSION_MINOR : Nat := 1

/-- The `enum fy_flow_type`. -/
inductive fy_flow_type where
  | FYFT_NONE
  | FYFT_MAP
  | FYFT_SEQUENCE
  deriving DecidableEq

/-- The `enum fy_parser_state`, enumerators in declaration order. -/
inductive fy_parser_state where
  | FYPS_NONE
  | FYPS_STREAM_START
  | FYPS_IMPLICIT_DOCUMENT_START
  | FYPS_DOCUMENT_START
  | FYPS_DOCUMENT_CONTENT
  | FYPS_DOCUMENT_END
  | FYPS_BLOCK_NODE
  | FYPS_BLOCK_NODE_OR_INDENTLESS_SEQUENCE
  | FYPS_FLOW_NODE
  | FYPS_BLOCK_SEQUENCE_FIRST_ENTRY
  | FYPS_BLOCK_SEQUENCE_ENTRY
  | FYPS_INDENTLESS_SEQUENCE_ENTRY
  | FYPS_BLOCK_MAPPING_FIRST_KEY
  | FYPS_BLOCK_MAPPING_KEY
  | FYPS_BLOCK_MAPPING_VALUE
  | FYPS_FLOW_SEQUENCE_FIRST_ENTRY
  | FYPS_FLOW_SEQUENCE_ENTRY
  | FYPS_FLOW_SEQUENCE_ENTRY_MAPPING_KEY
  | FYPS_FLOW_SEQUENCE_ENTRY_MAPPING_VALUE
  | FYPS_FLOW_SEQUENCE_ENTRY_MAPPING_END
  | FYPS_FLOW_MAPPING_FIRST_KEY
  | FYPS_FLOW_MAPPING_KEY
  | FYPS_FLOW_MAPPING_VALUE
  | FYPS_FLOW_MAPPING_EMPTY_VALUE
  | FYPS_SINGLE_DOCUMENT_END
  | FYPS_END
  deriving DecidableEq, Fintype

open fy_parser_state

/-- The enumerators of `enum fy_parser_state` as the declaration lists them,
top to bottom. -/
def fy_parser_state_enumerators : List fy_parser_state :=
  [ FYPS_NONE,
    FYPS_STREAM_START,
    FYPS_IMPLICIT_DOCUMENT_START,
    FYPS_DOCUMENT_START,
    FYPS_DOCUMENT_CONTENT,
    FYPS_DOCUMENT_END,
    FYPS_BLOCK_NODE,
    FYPS_BLOCK_NODE_OR_INDENTLESS_SEQUENCE,
    FYPS_FLOW_NODE,
    FYPS_BLOCK_SEQUENCE_FIRST_ENTRY,
    FYPS_BLOCK_SEQUENCE_ENTRY,
    FYPS_INDENTLESS_SEQUENCE_ENTRY,
    FYPS_BLOCK_MAPPING_FIRST_KEY,
    FYPS_BLOCK_MAPPING_KEY,
    FYPS_BLOCK_MAPPING_VALUE,
    FYPS_FLOW_SEQUENCE_FIRST_ENTRY,
    FYPS_FLOW_SEQUENCE_ENTRY,
    FYPS_FLOW_SEQUENCE_ENTRY_MAPPING_KEY,
    FYPS_FLOW_SEQUENCE_ENTRY_MAPPING_VALUE,
    FYPS_FLOW_SEQUENCE_ENTRY_MAPPING_END,
    FYPS_FLOW_MAPPING_FIRST_KEY,
    FYPS_FLOW_MAPPING_KEY,
    FYPS_FLOW_MAPPING_VALUE,
    FYPS_FLOW_MAPPING_EMPTY_VALUE,
    FYPS_SINGLE_DOCUMENT_END,
    FYPS_END ]

/-- The integer value of an enumerator.  No enumerator of the declaration has
an initialiser, so by the C rule the first is 0 and each next one is the
previous plus one: the value is the position in the declaration. -/
def fy_parser_state.value (s : fy_parser_state) : Nat :=
  fy_parser_state_enumerators.indexOf s

/-- The parser states as the spec lists them, in the order of its sentence. -/
inductive spec_parser_state where
  | stream_start
  | implicit_document_start
  | explicit_document_start
  | document_content
  | document_end
  | block_node
  | block_node_or_indentless_sequence
  | flow_node
  | block_sequence_first_entry
  | block_sequence_subsequent_entry
  | indentless_sequence_entry
  | block_mapping_first_key
  | block_mapping_key
  | block_mapping_value
  | flow_sequence_first_entry
  | flow_sequence_subsequent_entry
  | flow_sequence_mapping_key
  | flow_sequence_mapping_value
  | flow_sequence_mapping_end
  | flow_mapping_first_key
  | flow_mapping_key
  | flow_mapping_value
  | flow_mapping_empty_value
  | single_document_end
  | terminal_end
  deriving DecidableEq, Fintype

/-- The enumerator that stands for each state of the spec's list, matched by
the comment the declaration puts on the enumerator. -/
def spec_parser_state.enumerator : spec_parser_state → fy_parser_state
  | .stream_start => FYPS_STREAM_START
  | .implicit_document_start => FYPS_IMPLICIT_DOCUMENT_START
  | .explicit_document_start => FYPS_DOCUMENT_START
  | .document_content => FYPS_DOCUMENT_CONTENT
  | .document_end => FYPS_DOCUMENT_END
  | .block_node => FYPS_BLOCK_NODE
  | .block_node_or_indentless_sequence => FYPS_BLOCK_NODE_OR_INDENTLESS_SEQUENCE
  | .flow_node => FYPS_FLOW_NODE
  | .block_sequence_first_entry => FYPS_BLOCK_SEQUENCE_FIRST_ENTRY
  | .block_sequence_subsequent_entry => FYPS_BLOCK_SEQUENCE_ENTRY
  | .indentless_sequence_entry => FYPS_INDENTLESS_SEQUENCE_ENTRY
  | .block_mapping_first_key => FYPS_BLOCK_MAPPING_FIRST_KEY
  | .block_mapping_key => FYPS_BLOCK_MAPPING_KEY
  | .block_mapping_value => FYPS_BLOCK_MAPPING_VALUE
  | .flow_sequence_first_entry => FYPS_FLOW_SEQUENCE_FIRST_ENTRY
  | .flow_sequence_subsequent_entry => FYPS_FLOW_SEQUENCE_ENTRY
  | .flow_sequence_mapping_key => FYPS_FLOW_SEQUENCE_ENTRY_MAPPING_KEY
  | .flow_sequence_mapping_value => FYPS_FLOW_SEQUENCE_ENTRY_MAPPING_VALUE
  | .flow_sequence_mapping_end => FYPS_FLOW_SEQUENCE_ENTRY_MAPPING_END
  | .flow_mapping_first_key => FYPS_FLOW_MAPPING_FIRST_KEY
  | .flow_mapping_key => FYPS_FLOW_MAPPING_KEY
  | .flow_mapping_value => FYPS_FLOW_MAPPING_VALUE
  | .flow_mapping_empty_value => FYPS_FLOW_MAPPING_EMPTY_VALUE
  | .single_document_end => FYPS_SINGLE_DOCUMENT_END
  | .terminal_end => FYPS_END

/-- The state of the spec's list an enumerator stands for, none for
`FYPS_NONE`. -/
def fy_parser_state.listed : fy_parser_state → Option spec_parser_state
  | FYPS_NONE => none
  | FYPS_STREAM_START => some .stream_start
  | FYPS_IMPLICIT_DOCUMENT_START => some .implicit_document_start
  | FYPS_DOCUMENT_START => some .explicit_document_start
  | FYPS_DOCUMENT_CONTENT => some .document_content
  | FYPS_DOCUMENT_END => some .document_end
  | FYPS_BLOCK_NODE => some .block_node
  | FYPS_BLOCK_NODE_OR_INDENTLESS_SEQUENCE => some .block_node_or_indentless_sequence
  | FYPS_FLOW_NODE => some .flow_node
  | FYPS_BLOCK_SEQUENCE_FIRST_ENTRY => some .block_sequence_first_entry
  | FYPS_BLOCK_SEQUENCE_ENTRY => some .block_sequence_subsequent_entry
  | FYPS_INDENTLESS_SEQUENCE_ENTRY => some .indentless_sequence_entry
  | FYPS_BLOCK_MAPPING_FIRST_KEY => some .block_mapping_first_key
  | FYPS_BLOCK_MAPPING_KEY => some .block_mapping_key
  | FYPS_BLOCK_MAPPING_VALUE => some .block_mapping_value
  | FYPS_FLOW_SEQUENCE_FIRST_ENTRY => some .flow_sequence_first_entry
  | FYPS_FLOW_SEQUENCE_ENTRY => some .flow_sequence_subsequent_entry
  | FYPS_FLOW_SEQUENCE_ENTRY_MAPPING_KEY => some .flow_sequence_mapping_key
  | FYPS_FLOW_SEQUENCE_ENTRY_MAPPING_VALUE => some .flow_sequence_mapping_value
  | FYPS_FLOW_SEQUENCE_ENTRY_MAPPING_END => some .flow_sequence_mapping_end
  | FYPS_FLOW_MAPPING_FIRST_KEY => some .flow_mapping_first_key
  | FYPS_FLOW_MAPPING_KEY => some .flow_mapping_key
  | FYPS_FLOW_MAPPING_VALUE => some .flow_mapping_value
  | FYPS_FLOW_MAPPING_EMPTY_VALUE => some .flow_mapping_empty_value
  | FYPS_SINGLE_DOCUMENT_END => some .single_document_end
  | FYPS_END => some .terminal_end

/-! ## fy-doc.h : nodes, pairs and the mapping sort -/

mutual
/-- The `struct fy_node`: a scalar, a sequence of nodes or a mapping of pairs
(the anonymous union, selected by `type`), with the marks word and the
`attached` and `synthetic` bits.  Pointers to tokens, the document and the
parent are left out. -/
inductive fy_node where
  | scalar (marks : Nat) (attached synthetic : Bool) (scalar : String)
  | sequence (marks : Nat) (attached synthetic : Bool) (sequence : List fy_node)
  | mapping (marks : Nat) (attached synthetic : Bool) (mapping : List fy_node_pair)
/-- The `struct fy_node_pair`: a key and a value, either of which may be
NULL. -/
inductive fy_node_pair where
  | mk (key : Option fy_node) (value : Option fy_node)
end

/-- Modelled from the spec: the comparator type `fy_node_mapping_sort_fn` is a
typedef of the public header; the spec describes it as receiving both pairs
and an opaque argument.  The result is a C `int`: negative, zero or positive. -/
abbrev fy_node_mapping_sort_fn (A : Type) : Type :=
  fy_node_pair → fy_node_pair → A → Int

/-- Modelled from the spec: one step of the stable sort the spec asks of the
mapping sort, whose body is not in the headers.  The pair `fynp` goes in front
of the first pair it does not compare greater than, so it stays in front of
the pairs it compares equal to. -/
def fy_node_mapping_sort_insert {A : Type} (key_cmp : fy_node_mapping_sort_fn A) (arg : A)
    (fynp : fy_node_pair) : List fy_node_pair → List fy_node_pair
  | [] => [fynp]
  | q :: qs =>
    if key_cmp fynp q arg ≤ 0 then fynp :: q :: qs
    else q :: fy_node_mapping_sort_insert key_cmp arg fynp qs

/-- Modelled from the spec: the stable sort of a flat array of pairs with a
user comparator; `fy_node_mapping_perform_sort` is only declared in fy-doc.h.
Each pair is put, last to first, into the sorted rest. -/
def fy_node_mapping_sort_pairs {A : Type} (key_cmp : fy_node_mapping_sort_fn A) (arg : A) :
    List fy_node_pair → List fy_node_pair
  | [] => []
  | fynp :: rest =>
    fy_node_mapping_sort_insert key_cmp arg fynp (fy_node_mapping_sort_pairs key_cmp arg rest)

/-- Modelled from the spec: `fy_node_mapping_perform_sort`, declared in
fy-doc.h without a body.  Per the spec it extracts the pair list of the
mapping into the flat array `fynpp` and sorts that array with `key_cmp`,
stably; the array, one entry per pair, is the result.  A node that is not a
mapping has no pair list. -/
def fy_node_mapping_perform_sort {A : Type} (fyn_map : fy_node)
    (key_cmp : fy_node_mapping_sort_fn A) (arg : A) : List fy_node_pair :=
  match fyn_map with
  | .mapping _ _ _ pairs => fy_node_mapping_sort_pairs key_cmp arg pairs
  | _ => []

/-- The scalar text of a pair's key, empty when the key is not a scalar. -/
def fy_node_pair.key_text : fy_node_pair → String
  | .mk (some (.scalar _ _ _ text)) _ => text
  | _ => ""

/-- A comparator that orders pairs by the length of the key's scalar text. -/
def key_length_cmp : fy_node_mapping_sort_fn Unit :=
  fun a b _ => (a.key_text.length : Int) - (b.key_text.length : Int)

/-- A function of the comparator type that is no ordering: it answers
"greater" for every two pairs. -/
def always_greater_cmp : fy_node_mapping_sort_fn Unit :=
  fun _ _ _ => 1

/-- A scalar-keyed pair `key: value`. -/
def scalar_pair (key value : String) : fy_node_pair :=
  .mk (some (.scalar 0 true false key)) (some (.scalar 0 true false value))

/-! ## fy-parse.h : the parser and its reader wrappers -/

/-- The reader operations the parser wrappers call.  The reader (fy-input.h)
is not among the sources, so its state type `R` and its operations are
parameters.  An operation the headers call through a `const` parser is a
function of the reader; the others also return the reader they leave behind.
The `ssize_t *offsetp` of the internal peek is an optional cell, returned
updated. -/
structure fy_reader_ops (R : Type) where
  fy_reader_column : R → Int
  fy_reader_line : R → Int
  fy_reader_tabsize : R → Int
  fy_reader_is_blankz : R → Int → Bool
  fy_reader_strncmp : R → String → Nat → Int × R
  fy_reader_peek_at_offset : R → Nat → Int × R
  fy_reader_peek_at_internal : R → Int → Option Int → Int × Option Int × R
  fy_reader_get : R → Int × R
  fy_reader_advance_by : R → Int → Int × R

/-- The `struct fy_parser` (named `fy_parser_struct` here): the embedded
reader and the scalar members; the lists, tokens, configuration and diagnostic
pointers are left out. -/
structure fy_parser_struct (R : Type) where
  reader : R
  suppress_recycling : Bool
  stream_start_produced : Bool
  stream_end_produced : Bool
  simple_key_allowed : Bool
  stream_error : Bool
  generated_block_map : Bool
  last_was_comma : Bool
  document_has_content : Bool
  document_first_content_token : Bool
  bare_document_only : Bool
  stream_has_content : Bool
  flow_level : Int
  pending_complex_key_column : Int
  last_block_mapping_key_line : Int
  token_activity_counter : Int
  indent : Int
  parent_indent : Int
  state : fy_parser_state
  next_single_document : Bool
  flow : fy_flow_type
  err_term_width : Int
  err_term_height : Int

/-- The function `fyp_column` of fy-parse.h. -/
def fyp_column {R : Type} (ops : fy_reader_ops R) (fyp : Option (fy_parser_struct R)) : Int :=
  match fyp with
  | none => -1
  | some p => ops.fy_reader_column p.reader

/-- The function `fyp_line` of fy-parse.h. -/
def fyp_line {R : Type} (ops : fy_reader_ops R) (fyp : Option (fy_parser_struct R)) : Int :=
  match fyp with
  | none => -1
  | some p => ops.fy_reader_line p.reader

/-- The function `fyp_tabsize` of fy-parse.h. -/
def fyp_tabsize {R : Type} (ops : fy_reader_ops R) (fyp : Option (fy_parser_struct R)) : Int :=
  match fyp with
  | none => -1
  | some p => ops.fy_reader_tabsize p.reader

/-- The function `fyp_is_blankz` of fy-parse.h:
`fyp && fy_reader_is_blankz(&fyp->reader, c)`. -/
def fyp_is_blankz {R : Type} (ops : fy_reader_ops R) (fyp : Option (fy_parser_struct R)) (c : Int) :
    Bool :=
  match fyp with
  | none => false
  | some p => ops.fy_reader_is_blankz p.reader c

/-- The function `fy_parse_strncmp` of fy-parse.h. -/
def fy_parse_strncmp {R : Type} (ops : fy_reader_ops R) (fyp : Option (fy_parser_struct R))
    (str : String) (n : Nat) : Int × Option (fy_parser_struct R) :=
  match fyp with
  | none => (-1, none)
  | some p =>
    let res := ops.fy_reader_strncmp p.reader str n
    (res.1, some { p with reader := res.2 })

/-- The function `fy_parse_peek_at_offset` of fy-parse.h. -/
def fy_parse_peek_at_offset {R : Type} (ops : fy_reader_ops R) (fyp : Option (fy_parser_struct R))
    (offset : Nat) : Int × Option (fy_parser_struct R) :=
  match fyp with
  | none => (-1, none)
  | some p =>
    let res := ops.fy_reader_peek_at_offset p.reader offset
    (res.1, some { p with reader := res.2 })

/-- The function `fy_parse_peek_at_internal` of fy-parse.h; the result carries
the return value, the cell `*offsetp` and the parser. -/
def fy_parse_peek_at_internal {R : Type} (ops : fy_reader_ops R) (fyp : Option (fy_parser_struct R))
    (pos : Int) (offsetp : Option Int) : Int × Option Int × Option (fy_parser_struct R) :=
  match fyp with
  | none => (-1, offsetp, none)
  | some p =>
    let res := ops.fy_reader_peek_at_internal p.reader pos offsetp
    (res.1, res.2.1, some { p with reader := res.2.2 })

/-- The function `fy_is_blankz_at_offset` of fy-parse.h: true for the NULL
parser, else the reader's classification of the reader's peek. -/
def fy_is_blankz_at_offset {R : Type} (ops : fy_reader_ops R) (fyp : Option (fy_parser_struct R))
    (offset : Nat) : Bool × Option (fy_parser_struct R) :=
  match fyp with
  | none => (true, none)
  | some p =>
    let res := ops.fy_reader_peek_at_offset p.reader offset
    (ops.fy_reader_is_blankz res.2 res.1, some { p with reader := res.2 })

/-- The function `fy_parse_peek_at` of fy-parse.h: the internal peek of the
reader with a NULL `offsetp`. -/
def fy_parse_peek_at {R : Type} (ops : fy_reader_ops R) (fyp : Option (fy_parser_struct R))
    (pos : Int) : Int × Option (fy_parser_struct R) :=
  match fyp with
  | none => (-1, none)
  | some p =>
    let res := ops.fy_reader_peek_at_internal p.reader pos none
    (res.1, some { p with reader := res.2.2 })

/-- The function `fy_parse_peek` of fy-parse.h. -/
def fy_parse_peek {R : Type} (ops : fy_reader_ops R) (fyp : Option (fy_parser_struct R)) :
    Int × Option (fy_parser_struct R) :=
  fy_parse_peek_at_offset ops fyp 0

/-- The function `fy_parse_get` of fy-parse.h. -/
def fy_parse_get {R : Type} (ops : fy_reader_ops R) (fyp : Option (fy_parser_struct R)) :
    Int × Option (fy_parser_struct R) :=
  match fyp with
  | none => (-1, none)
  | some p =>
    let res := ops.fy_reader_get p.reader
    (res.1, some { p with reader := res.2 })

/-- The function `fy_advance_by` of fy-parse.h. -/
def fy_advance_by {R : Type} (ops : fy_reader_ops R) (fyp : Option (fy_parser_struct R))
    (count : Int) : Int × Option (fy_parser_struct R) :=
  match fyp with
  | none => (-1, none)
  | some p =>
    let res := ops.fy_reader_advance_by p.reader count
    (res.1, some { p with reader := res.2 })

/-- The right-hand side of the combined-query equation as the claim words it:
peek with `fy_parse_peek_at_offset`, then classify the peeked character with
the parser-level predicate `fyp_is_blankz`. -/
def fyp_is_blankz_of_peek_at_offset {R : Type} (ops : fy_reader_ops R)
    (fyp : Option (fy_parser_struct R)) (offset : Nat) : Bool × Option (fy_parser_struct R) :=
  let peeked := fy_parse_peek_at_offset ops fyp offset
  (fyp_is_blankz ops peeked.2 peeked.1, peeked.2)

/-- A reader over the code points still to read, with its column; it serves to
evaluate the wrappers at concrete arguments.  A peek past the end gives -1 and
a blank-or-zero is a space, a tab, a line feed, a carriage return, NUL or the
end of input. -/
def list_reader_ops : fy_reader_ops (List Int × Int) where
  fy_reader_column := fun r => r.2
  fy_reader_line := fun _ => 0
  fy_reader_tabsize := fun _ => 8
  fy_reader_is_blankz := fun _ c => c == 32 || c == 9 || c == 10 || c == 13 || c ≤ 0
  fy_reader_strncmp := fun r _ _ => (0, r)
  fy_reader_peek_at_offset := fun r offset => (r.1.getD offset (-1), r)
  fy_reader_peek_at_internal := fun r pos offsetp => (r.1.getD pos.toNat (-1), offsetp, r)
  fy_reader_get := fun r => (r.1.headD (-1), (r.1.tail, r.2 + 1))
  fy_reader_advance_by := fun r count => (0, (r.1.drop count.toNat, r.2 + count))

/-! ## Theorems -/

theorem FY_BIT_eq_two_pow (x : Nat) (hx : x < 32) : FY_BIT x = 2 ^ x := by
  unfold FY_BIT
  rw [Nat.one_shiftLeft]
  exact Nat.mod_eq_of_lt (Nat.pow_lt_pow_right (by decide) hx)

/-- C1: for a user maximum `M` with `M + 2 < 32`, the two system marker
indices `M + 1` and `M + 2` lie strictly above `M` and differ, the mask
`FYNWF_SYSTEM_MARKS` has exactly the bits of those two indices set, and it
shares no bit with `FY_BIT i` for a user index `i ≤ M`. -/
theorem system_marks_reserved_above_user (M : Nat) (hM : M + 2 < 32) :
    FYNWF_VISIT_MARKER M = M + 1 ∧ FYNWF_REF_MARKER M = M + 2 ∧
    M < FYNWF_VISIT_MARKER M ∧ M < FYNWF_REF_MARKER M ∧
    FYNWF_VISIT_MARKER M ≠ FYNWF_REF_MARKER M ∧
    FYNWF_SYSTEM_MARKS M < 2 ^ 32 ∧
    (∀ j : Nat, (FYNWF_SYSTEM_MARKS M).testBit j = true ↔
      (j = FYNWF_VISIT_MARKER M ∨ j = FYNWF_REF_MARKER M)) ∧
    (∀ i : Nat, i ≤ M → FYNWF_SYSTEM_MARKS M &&& FY_BIT i = 0) := by
  have hv : FY_BIT (M + 1) = 2 ^ (M + 1) := FY_BIT_eq_two_pow _ (by omega)
  have hr : FY_BIT (M + 2) = 2 ^ (M + 2) := FY_BIT_eq_two_pow _ (by omega)
  have hbits : ∀ j : Nat, (FYNWF_SYSTEM_MARKS M).testBit j = true ↔
      (j = M + 1 ∨ j = M + 2) := by
    intro j
    unfold FYNWF_SYSTEM_MARKS FYNWF_VISIT_MARKER FYNWF_REF_MARKER
    rw [hv, hr, Nat.testBit_or, Bool.or_eq_true, Nat.testBit_two_pow, Nat.testBit_two_pow]
    simp only [decide_eq_true_eq]
    constructor <;> rintro (h | h) <;> omega
  refine ⟨rfl, rfl, ?_, ?_, ?_, ?_, ?_, ?_⟩
  · unfold FYNWF_VISIT_MARKER; omega
  · unfold FYNWF_REF_MARKER; omega
  · unfold FYNWF_VISIT_MARKER FYNWF_REF_MARKER; omega
  · apply Nat.lt_pow_two_of_testBit
    intro j hj
    by_contra hne
    have := (hbits j).1 (by simpa using hne)
    omega
  · exact hbits
  · intro i hi
    apply Nat.eq_of_testBit_eq
    intro j
    rw [Nat.testBit_and, Nat.zero_testBit, FY_BIT_eq_two_pow i (by omega), Nat.testBit_two_pow]
    by_cases hj : i = j
    · have hn : ¬ ((FYNWF_SYSTEM_MARKS M).testBit j = true) := by
        rw [hbits j]; omega
      simp [hn]
    · simp [hj]

/-- C2: `fy_walk_component_type_is_initial` is true for the two leading kinds
`fwct_start_root` and `fwct_start_alias`, and false for `fwct_none` and for
each of the nine path-body kinds the claim lists. -/
theorem is_initial_on_listed_kinds :
    fy_walk_component_type_is_initial fwct_start_root = true ∧
    fy_walk_component_type_is_initial fwct_start_alias = true ∧
    fy_walk_component_type_is_initial fwct_none = false ∧
    fy_walk_component_type_is_initial fwct_this = false ∧
    fy_walk_component_type_is_initial fwct_parent = false ∧
    fy_walk_component_type_is_initial fwct_every_child = false ∧
    fy_walk_component_type_is_initial fwct_every_child_r = false ∧
    fy_walk_component_type_is_initial fwct_every_leaf = false ∧
    fy_walk_component_type_is_initial fwct_assert_collection = false ∧
    fy_walk_component_type_is_initial fwct_simple_map_key = false ∧
    fy_walk_component_type_is_initial fwct_simple_seq_index = false ∧
    fy_walk_component_type_is_initial fwct_simple_sibling_map_key = false := by
  refine ⟨?_, ?_, ?_, ?_, ?_, ?_, ?_, ?_, ?_, ?_, ?_, ?_⟩ <;> rfl

/-- C3: `fy_walk_component_type_is_terminating` is true for
`fwct_assert_collection`; for every kind it is true exactly when the kind is
one of `fwct_every_child_r`, `fwct_every_leaf`, `fwct_assert_collection`; and
it is false for `fwct_none`, both start kinds, `fwct_root`, `fwct_this`,
`fwct_parent`, `fwct_every_child` and the three simple lookup kinds. -/
theorem is_terminating_exactly_three_kinds :
    fy_walk_component_type_is_terminating fwct_assert_collection = true ∧
    (∀ t : fy_walk_component_type,
      fy_walk_component_type_is_terminating t = true ↔
        (t = fwct_every_child_r ∨ t = fwct_every_leaf ∨ t = fwct_assert_collection)) ∧
    fy_walk_component_type_is_terminating fwct_none = false ∧
    fy_walk_component_type_is_terminating fwct_start_root = false ∧
    fy_walk_component_type_is_terminating fwct_start_alias = false ∧
    fy_walk_component_type_is_terminating fwct_root = false ∧
    fy_walk_component_type_is_terminating fwct_this = false ∧
    fy_walk_component_type_is_terminating fwct_parent = false ∧
    fy_walk_component_type_is_terminating fwct_every_child = false ∧
    fy_walk_component_type_is_terminating fwct_simple_map_key = false ∧
    fy_walk_component_type_is_terminating fwct_simple_seq_index = false ∧
    fy_walk_component_type_is_terminating fwct_simple_sibling_map_key = false := by
  refine ⟨rfl, ?_, rfl, rfl, rfl, rfl, rfl, rfl, rfl, rfl, rfl, rfl⟩
  intro t
  cases t <;> simp [fy_walk_component_type_is_terminating]

/-- C4, as stated, fails: the initial predicate does not accept the root
kind `fwct_root`. -/
theorem is_initial_root_not_true :
    ¬ (fy_walk_component_type_is_initial fwct_root = true) := by
  decide

/-- C4, amended: `fy_walk_component_type_is_initial fwct_root` is false, the
predicate being true exactly for `fwct_start_root` and `fwct_start_alias`. -/
theorem is_initial_only_start_kinds :
    fy_walk_component_type_is_initial fwct_root = false ∧
    (∀ t : fy_walk_component_type,
      fy_walk_component_type_is_initial t = true ↔
        (t = fwct_start_root ∨ t = fwct_start_alias)) := by
  refine ⟨rfl, ?_⟩
  intro t
  cases t <;> simp [fy_walk_component_type_is_initial]

/-- C5, as stated, fails: the component sequence of `/a/**/c` is not well
placed, its every-child-recursive component being classified terminating
while standing third of four. -/
theorem ypath_scenario_not_well_placed :
    ¬ ypath_well_placed ypath_a_every_child_r_c := by
  intro h
  have h2 := (h ⟨2, by decide⟩).2 rfl
  exact absurd h2 (by decide)

/-- C5, amended: in the four-component sequence of `/a/**/c` the components
classified initial are exactly the one at the first position, and the
components classified terminating are exactly the every-child-recursive one at
index 2; the last component, at index 3, is not classified terminating. -/
theorem ypath_scenario_placement :
    ypath_a_every_child_r_c.length = 4 ∧
    (ypath_a_every_child_r_c.map (fun c => c.type)) =
      [fwct_start_root, fwct_simple_map_key, fwct_every_child_r, fwct_simple_map_key] ∧
    (∀ i : Fin ypath_a_every_child_r_c.length,
      fy_walk_component_type_is_initial (ypath_a_every_child_r_c.get i).type = true ↔
        i.val = 0) ∧
    (∀ i : Fin ypath_a_every_child_r_c.length,
      fy_walk_component_type_is_terminating (ypath_a_every_child_r_c.get i).type = true ↔
        i.val = 2) := by
  refine ⟨rfl, rfl, ?_, ?_⟩ <;> decide

/-- C7: the default YAML version is 1.1, `FY_DEFAULT_YAML_VERSION_MAJOR`
being 1 and `FY_DEFAULT_YAML_VERSION_MINOR` being 1. -/
theorem default_yaml_version_is_1_1 :
    FY_DEFAULT_YAML_VERSION_MAJOR = 1 ∧ FY_DEFAULT_YAML_VERSION_MINOR = 1 :=
  ⟨rfl, rfl⟩

/-- C8: the spec lists 25 states and `fy_parser_state` has 26 enumerators; the
listed states correspond one to one to the enumerators other than `FYPS_NONE`
(the correspondence is injective, never hits `FYPS_NONE`, and reaches every
other enumerator), and the 26 enumerators have pairwise distinct values that
run consecutively from `FYPS_NONE = 0` to `FYPS_END = 25`. -/
theorem parser_states_match_spec_list :
    Fintype.card spec_parser_state = 25 ∧
    Fintype.card fy_parser_state = 26 ∧
    Function.Injective spec_parser_state.enumerator ∧
    (∀ s : spec_parser_state, s.enumerator ≠ FYPS_NONE) ∧
    (∀ e : fy_parser_state, e ≠ FYPS_NONE → ∃ s : spec_parser_state, s.enumerator = e) ∧
    (∀ e : fy_parser_state, e ∈ fy_parser_state_enumerators) ∧
    fy_parser_state_enumerators.length = 26 ∧
    fy_parser_state_enumerators.map fy_parser_state.value = List.range 26 ∧
    Function.Injective fy_parser_state.value ∧
    FYPS_NONE.value = 0 ∧ FYPS_END.value = 25 ∧
    (∀ e : fy_parser_state, e.value ≤ 25) := by
  have hinv : ∀ s : spec_parser_state, s.enumerator.listed = some s := by
    intro s; cases s <;> rfl
  have hmem : ∀ e : fy_parser_state, e ∈ fy_parser_state_enumerators := by
    intro e; cases e <;> decide
  refine ⟨rfl, rfl, ?_, ?_, ?_, hmem, rfl, by decide, ?_, rfl, rfl, ?_⟩
  · intro a b hab
    have := congrArg fy_parser_state.listed hab
    rw [hinv a, hinv b] at this
    exact Option.some.inj this
  · intro s; cases s <;> decide
  · intro e he
    have hback : e = FYPS_NONE ∨ ∃ s : spec_parser_state, e.listed = some s ∧ s.enumerator = e := by
      cases e <;> first | exact Or.inl rfl | exact Or.inr ⟨_, rfl, rfl⟩
    rcases hback with h | ⟨s, _, hs⟩
    · exact absurd h he
    · exact ⟨s, hs⟩
  · intro a b hab
    unfold fy_parser_state.value at hab
    exact (List.indexOf_inj (hmem a) (hmem b)).1 hab
  · intro e; cases e <;> decide

/-! ### The mapping sort -/

theorem sort_insert_perm {A : Type} (key_cmp : fy_node_mapping_sort_fn A) (arg : A)
    (p : fy_node_pair) (l : List fy_node_pair) :
    (fy_node_mapping_sort_insert key_cmp arg p l).Perm (p :: l) := by
  induction l with
  | nil => exact List.Perm.refl _
  | cons q qs ih =>
    unfold fy_node_mapping_sort_insert
    by_cases h : key_cmp p q arg ≤ 0
    · rw [if_pos h]
    · rw [if_neg h]
      exact (List.Perm.cons q ih).trans (List.Perm.swap p q qs)

theorem sort_pairs_perm {A : Type} (key_cmp : fy_node_mapping_sort_fn A) (arg : A)
    (l : List fy_node_pair) :
    (fy_node_mapping_sort_pairs key_cmp arg l).Perm l := by
  induction l with
  | nil => exact List.Perm.refl _
  | cons p ps ih =>
    unfold fy_node_mapping_sort_pairs
    exact (sort_insert_perm key_cmp arg p _).trans (List.Perm.cons p ih)

theorem sort_insert_ordered {A : Type} (key_cmp : fy_node_mapping_sort_fn A) (arg : A)
    (hanti : ∀ a b, key_cmp a b arg ≤ 0 ↔ 0 ≤ key_cmp b a arg)
    (htrans : ∀ a b c, key_cmp a b arg ≤ 0 → key_cmp b c arg ≤ 0 → key_cmp a c arg ≤ 0)
    (p : fy_node_pair) (l : List fy_node_pair)
    (hl : l.Pairwise (fun a b => key_cmp a b arg ≤ 0)) :
    (fy_node_mapping_sort_insert key_cmp arg p l).Pairwise (fun a b => key_cmp a b arg ≤ 0) := by
  induction l with
  | nil => exact List.pairwise_singleton _ _
  | cons q qs ih =>
    obtain ⟨hq, hqs⟩ := List.pairwise_cons.1 hl
    unfold fy_node_mapping_sort_insert
    by_cases h : key_cmp p q arg ≤ 0
    · rw [if_pos h]
      refine List.pairwise_cons.2 ⟨?_, hl⟩
      intro x hx
      rcases List.mem_cons.1 hx with rfl | hx
      · exact h
      · exact htrans _ _ _ h (hq x hx)
    · rw [if_neg h]
      refine List.pairwise_cons.2 ⟨?_, ih hqs⟩
      intro x hx
      rcases List.mem_cons.1 ((sort_insert_perm key_cmp arg p qs).mem_iff.1 hx) with rfl | hx
      · exact (hanti q x).2 (by omega)
      · exact hq x hx

theorem sort_pairs_ordered {A : Type} (key_cmp : fy_node_mapping_sort_fn A) (arg : A)
    (hanti : ∀ a b, key_cmp a b arg ≤ 0 ↔ 0 ≤ key_cmp b a arg)
    (htrans : ∀ a b c, key_cmp a b arg ≤ 0 → key_cmp b c arg ≤ 0 → key_cmp a c arg ≤ 0)
    (l : List fy_node_pair) :
    (fy_node_mapping_sort_pairs key_cmp arg l).Pairwise (fun a b => key_cmp a b arg ≤ 0) := by
  induction l with
  | nil => exact List.Pairwise.nil
  | cons p ps ih =>
    unfold fy_node_mapping_sort_pairs
    exact sort_insert_ordered key_cmp arg hanti htrans p _ ih

theorem sort_insert_keeps_equal_order {A : Type} (key_cmp : fy_node_mapping_sort_fn A) (arg : A)
    (hanti : ∀ a b, key_cmp a b arg ≤ 0 ↔ 0 ≤ key_cmp b a arg)
    (htrans : ∀ a b c, key_cmp a b arg ≤ 0 → key_cmp b c arg ≤ 0 → key_cmp a c arg ≤ 0)
    (k p : fy_node_pair) (l : List fy_node_pair) :
    (fy_node_mapping_sort_insert key_cmp arg p l).filter (fun q => decide (key_cmp k q arg = 0)) =
      (p :: l).filter (fun q => decide (key_cmp k q arg = 0)) := by
  induction l with
  | nil => rfl
  | cons q qs ih =>
    unfold fy_node_mapping_sort_insert
    by_cases h : key_cmp p q arg ≤ 0
    · rw [if_pos h]
    · rw [if_neg h, List.filter_cons, ih]
      by_cases hp : key_cmp k p arg = 0
      · by_cases hq : key_cmp k q arg = 0
        · exfalso
          apply h
          have hpk : key_cmp p k arg ≤ 0 := (hanti p k).2 (by omega)
          exact htrans p k q hpk (by omega)
        · simp [List.filter_cons, hp, hq]
      · by_cases hq : key_cmp k q arg = 0
        · simp [List.filter_cons, hp, hq]
        · simp [List.filter_cons, hp, hq]

theorem sort_pairs_keeps_equal_order {A : Type} (key_cmp : fy_node_mapping_sort_fn A) (arg : A)
    (hanti : ∀ a b, key_cmp a b arg ≤ 0 ↔ 0 ≤ key_cmp b a arg)
    (htrans : ∀ a b c, key_cmp a b arg ≤ 0 → key_cmp b c arg ≤ 0 → key_cmp a c arg ≤ 0)
    (k : fy_node_pair) (l : List fy_node_pair) :
    (fy_node_mapping_sort_pairs key_cmp arg l).filter (fun q => decide (key_cmp k q arg = 0)) =
      l.filter (fun q => decide (key_cmp k q arg = 0)) := by
  induction l with
  | nil => rfl
  | cons p ps ih =>
    unfold fy_node_mapping_sort_pairs
    rw [sort_insert_keeps_equal_order key_cmp arg hanti htrans, List.filter_cons, List.filter_cons,
      ih]

theorem key_length_cmp_anti (a b : fy_node_pair) :
    key_length_cmp a b () ≤ 0 ↔ 0 ≤ key_length_cmp b a () := by
  unfold key_length_cmp
  omega

theorem key_length_cmp_trans (a b c : fy_node_pair)
    (hab : key_length_cmp a b () ≤ 0) (hbc : key_length_cmp b c () ≤ 0) :
    key_length_cmp a c () ≤ 0 := by
  unfold key_length_cmp at *
  omega

/-- C6, as stated, fails: for the comparator that answers "greater" for every
two pairs, the array the sort fills for a mapping of two pairs is not ordered
by the comparator, and no arrangement of the two pairs is. -/
theorem mapping_sort_unordered_for_some_comparator :
    ¬ (fy_node_mapping_perform_sort
        (.mapping 0 true false [scalar_pair "a" "1", scalar_pair "b" "2"])
        always_greater_cmp ()).Pairwise (fun a b => always_greater_cmp a b () ≤ 0) ∧
    ∀ l : List fy_node_pair, l.Perm [scalar_pair "a" "1", scalar_pair "b" "2"] →
      ¬ l.Pairwise (fun a b => always_greater_cmp a b () ≤ 0) := by
  have hall : ∀ l : List fy_node_pair, l.Perm [scalar_pair "a" "1", scalar_pair "b" "2"] →
      ¬ l.Pairwise (fun a b => always_greater_cmp a b () ≤ 0) := by
    intro l hl hp
    have hlen : l.length = 2 := hl.length_eq
    match l, hlen with
    | [x, y], _ =>
      have hxy := (List.pairwise_cons.1 hp).1 y (List.mem_cons_self _ _)
      exact absurd hxy (by unfold always_greater_cmp; decide)
  refine ⟨?_, hall⟩
  apply hall
  exact sort_pairs_perm always_greater_cmp () _

/-- C6, amended: for every mapping node and every comparator that is a
consistent ordering (`key_cmp a b ≤ 0` exactly when `key_cmp b a ≥ 0`, and
`≤ 0` is transitive), the array filled by `fy_node_mapping_perform_sort` is a
permutation of the mapping's pairs with one entry per pair, it is ordered by
`key_cmp`, and it is stable: for every pair `k`, the pairs that compare equal
to `k` stand in the array in the order they have in the mapping. -/
theorem mapping_sort_sorted_stable {A : Type} (key_cmp : fy_node_mapping_sort_fn A) (arg : A)
    (hanti : ∀ a b, key_cmp a b arg ≤ 0 ↔ 0 ≤ key_cmp b a arg)
    (htrans : ∀ a b c, key_cmp a b arg ≤ 0 → key_cmp b c arg ≤ 0 → key_cmp a c arg ≤ 0)
    (marks : Nat) (attached synthetic : Bool) (pairs : List fy_node_pair) :
    (fy_node_mapping_perform_sort (.mapping marks attached synthetic pairs) key_cmp arg).Perm
      pairs ∧
    (fy_node_mapping_perform_sort (.mapping marks attached synthetic pairs) key_cmp arg).length =
      pairs.length ∧
    (fy_node_mapping_perform_sort (.mapping marks attached synthetic pairs) key_cmp arg).Pairwise
      (fun a b => key_cmp a b arg ≤ 0) ∧
    ∀ k : fy_node_pair,
      (fy_node_mapping_perform_sort (.mapping marks attached synthetic pairs) key_cmp arg).filter
          (fun q => decide (key_cmp k q arg = 0)) =
        pairs.filter (fun q => decide (key_cmp k q arg = 0)) := by
  unfold fy_node_mapping_perform_sort
  exact ⟨sort_pairs_perm key_cmp arg pairs, (sort_pairs_perm key_cmp arg pairs).length_eq,
    sort_pairs_ordered key_cmp arg hanti htrans pairs,
    fun k => sort_pairs_keeps_equal_order key_cmp arg hanti htrans k pairs⟩

/-- Witness for C6, amended: the comparator by key length is a consistent
ordering, and the mapping `bb: 1, a: 2, cc: 3, d: 4` sorts to `a, d, bb, cc`,
with `a` still before `d` and `bb` still before `cc`. -/
theorem mapping_sort_sorted_stable_witness :
    (∀ a b, key_length_cmp a b () ≤ 0 ↔ 0 ≤ key_length_cmp b a ()) ∧
    (∀ a b c, key_length_cmp a b () ≤ 0 → key_length_cmp b c () ≤ 0 →
      key_length_cmp a c () ≤ 0) ∧
    fy_node_mapping_perform_sort
        (.mapping 0 true false
          [scalar_pair "bb" "1", scalar_pair "a" "2", scalar_pair "cc" "3", scalar_pair "d" "4"])
        key_length_cmp () =
      [scalar_pair "a" "2", scalar_pair "d" "4", scalar_pair "bb" "1", scalar_pair "cc" "3"] ∧
    ((fy_node_mapping_perform_sort
        (.mapping 0 true false
          [scalar_pair "bb" "1", scalar_pair "a" "2", scalar_pair "cc" "3", scalar_pair "d" "4"])
        key_length_cmp ()).Perm
      [scalar_pair "bb" "1", scalar_pair "a" "2", scalar_pair "cc" "3", scalar_pair "d" "4"] ∧
    (fy_node_mapping_perform_sort
        (.mapping 0 true false
          [scalar_pair "bb" "1", scalar_pair "a" "2", scalar_pair "cc" "3", scalar_pair "d" "4"])
        key_length_cmp ()).length =
      [scalar_pair "bb" "1", scalar_pair "a" "2", scalar_pair "cc" "3",
        scalar_pair "d" "4"].length ∧
    (fy_node_mapping_perform_sort
        (.mapping 0 true false
          [scalar_pair "bb" "1", scalar_pair "a" "2", scalar_pair "cc" "3", scalar_pair "d" "4"])
        key_length_cmp ()).Pairwise (fun a b => key_length_cmp a b () ≤ 0) ∧
    ∀ k : fy_node_pair,
      (fy_node_mapping_perform_sort
          (.mapping 0 true false
            [scalar_pair "bb" "1", scalar_pair "a" "2", scalar_pair "cc" "3",
              scalar_pair "d" "4"])
          key_length_cmp ()).filter (fun q => decide (key_length_cmp k q () = 0)) =
        [scalar_pair "bb" "1", scalar_pair "a" "2", scalar_pair "cc" "3",
          scalar_pair "d" "4"].filter (fun q => decide (key_length_cmp k q () = 0))) :=
  ⟨key_length_cmp_anti, key_length_cmp_trans, rfl,
    mapping_sort_sorted_stable key_length_cmp () key_length_cmp_anti key_length_cmp_trans
      0 true false
      [scalar_pair "bb" "1", scalar_pair "a" "2", scalar_pair "cc" "3", scalar_pair "d" "4"]⟩

/-- Witness for C1 at the user maximum 24. -/
theorem system_marks_reserved_above_user_witness :
    24 + 2 < 32 ∧
    (FYNWF_VISIT_MARKER 24 = 24 + 1 ∧ FYNWF_REF_MARKER 24 = 24 + 2 ∧
    24 < FYNWF_VISIT_MARKER 24 ∧ 24 < FYNWF_REF_MARKER 24 ∧
    FYNWF_VISIT_MARKER 24 ≠ FYNWF_REF_MARKER 24 ∧
    FYNWF_SYSTEM_MARKS 24 < 2 ^ 32 ∧
    (∀ j : Nat, (FYNWF_SYSTEM_MARKS 24).testBit j = true ↔
      (j = FYNWF_VISIT_MARKER 24 ∨ j = FYNWF_REF_MARKER 24)) ∧
    (∀ i : Nat, i ≤ 24 → FYNWF_SYSTEM_MARKS 24 &&& FY_BIT i = 0)) :=
  ⟨by decide, system_marks_reserved_above_user 24 (by decide)⟩

/-! ### The parser wrappers -/

/-- C9, as stated, fails at the NULL parser: `fy_is_blankz_at_offset` answers
true there, while `fyp_is_blankz` of the peeked character (-1) answers
false. -/
theorem blankz_at_offset_differs_at_null :
    (fy_is_blankz_at_offset list_reader_ops none 0).1 = true ∧
    (fy_parse_peek_at_offset list_reader_ops none 0).1 = -1 ∧
    (fyp_is_blankz_of_peek_at_offset list_reader_ops none 0).1 = false ∧
    (fy_is_blankz_at_offset list_reader_ops none 0).1 ≠
      (fyp_is_blankz_of_peek_at_offset list_reader_ops none 0).1 := by
  refine ⟨rfl, rfl, rfl, ?_⟩
  decide

/-- C9, amended: for every present parser and every byte offset,
`fy_is_blankz_at_offset` gives the answer (and leaves the parser) that
classifying the character peeked by `fy_parse_peek_at_offset` with
`fyp_is_blankz` gives, namely the reader's classification of the reader's
peek; for the NULL parser `fy_is_blankz_at_offset` answers true and the
parser-level classification of the peek answers false. -/
theorem blankz_at_offset_eq_when_present {R : Type} (ops : fy_reader_ops R)
    (p : fy_parser_struct R) (offset : Nat) :
    fy_is_blankz_at_offset ops (some p) offset =
      fyp_is_blankz_of_peek_at_offset ops (some p) offset ∧
    (fy_is_blankz_at_offset ops (some p) offset).1 =
      fyp_is_blankz ops (fy_parse_peek_at_offset ops (some p) offset).2
        (fy_parse_peek_at_offset ops (some p) offset).1 ∧
    (fy_is_blankz_at_offset ops (some p) offset).1 =
      ops.fy_reader_is_blankz (ops.fy_reader_peek_at_offset p.reader offset).2
        (ops.fy_reader_peek_at_offset p.reader offset).1 ∧
    fy_is_blankz_at_offset ops none offset = (true, none) ∧
    fyp_is_blankz_of_peek_at_offset ops none offset = (false, none) :=
  ⟨rfl, rfl, rfl, rfl, rfl⟩

/-- C10: for the NULL parser each integer-valued wrapper returns -1 whatever
the arguments (and the parser stays NULL); for a present parser each returns
the result of the reader operation of the same name on the parser's own reader
with the same arguments (and leaves that operation's reader in the parser),
`fy_parse_peek` being the peek at byte offset 0 and `fy_parse_peek_at` the
internal peek with a NULL offset output. -/
theorem reader_wrappers_null_and_present {R : Type} (ops : fy_reader_ops R)
    (p : fy_parser_struct R) (str : String) (n offset : Nat) (pos count : Int) (offsetp : Option Int) :
    (fyp_column ops none = -1 ∧
      fyp_column ops (some p) = ops.fy_reader_column p.reader) ∧
    (fyp_line ops none = -1 ∧
      fyp_line ops (some p) = ops.fy_reader_line p.reader) ∧
    (fyp_tabsize ops none = -1 ∧
      fyp_tabsize ops (some p) = ops.fy_reader_tabsize p.reader) ∧
    (fy_parse_strncmp ops none str n = (-1, none) ∧
      fy_parse_strncmp ops (some p) str n =
        ((ops.fy_reader_strncmp p.reader str n).1,
          some { p with reader := (ops.fy_reader_strncmp p.reader str n).2 })) ∧
    (fy_parse_peek_at_offset ops none offset = (-1, none) ∧
      fy_parse_peek_at_offset ops (some p) offset =
        ((ops.fy_reader_peek_at_offset p.reader offset).1,
          some { p with reader := (ops.fy_reader_peek_at_offset p.reader offset).2 })) ∧
    (fy_parse_peek_at_internal ops none pos offsetp = (-1, offsetp, none) ∧
      fy_parse_peek_at_internal ops (some p) pos offsetp =
        ((ops.fy_reader_peek_at_internal p.reader pos offsetp).1,
          (ops.fy_reader_peek_at_internal p.reader pos offsetp).2.1,
          some { p with reader := (ops.fy_reader_peek_at_internal p.reader pos offsetp).2.2 })) ∧
    (fy_parse_peek_at ops none pos = (-1, none) ∧
      fy_parse_peek_at ops (some p) pos =
        ((ops.fy_reader_peek_at_internal p.reader pos none).1,
          some { p with reader := (ops.fy_reader_peek_at_internal p.reader pos none).2.2 })) ∧
    (fy_parse_peek ops none = (-1, none) ∧
      fy_parse_peek ops (some p) =
        ((ops.fy_reader_peek_at_offset p.reader 0).1,
          some { p with reader := (ops.fy_reader_peek_at_offset p.reader 0).2 })) ∧
    (fy_parse_get ops none = (-1, none) ∧
      fy_parse_get ops (some p) =
        ((ops.fy_reader_get p.reader).1,
          some { p with reader := (ops.fy_reader_get p.reader).2 })) ∧
    (fy_advance_by ops none count = (-1, none) ∧
      fy_advance_by ops (some p) count =
        ((ops.fy_reader_advance_by p.reader count).1,
          some { p with reader := (ops.fy_reader_advance_by p.reader count).2 })) :=
  ⟨⟨rfl, rfl⟩, ⟨rfl, rfl⟩, ⟨rfl, rfl⟩, ⟨rfl, rfl⟩, ⟨rfl, rfl⟩, ⟨rfl, rfl⟩, ⟨rfl, rfl⟩,
    ⟨rfl, rfl⟩, ⟨rfl, rfl⟩, ⟨rfl, rfl⟩⟩

end Fyaml
